import Mathlib

/-!
Shallow embedding of the playback / visualization core of
`gui_player.py` (Digital Reverse Engine): peak-envelope construction
(`NeonWaveform.set_waveform`), the streaming audio callback
(`CyberReverseEngine.audio_callback`), transport toggling
(`toggle_play`), seeking (`snap_to_ms`), BPM controls
(`half_bpm`, `double_bpm`, `SweepIndicator.set_bpm`), the transform
worker (`ReverseWorker.run`) and the right-click zoom logic
(`NeonWaveform.mousePressEvent`).

Audio samples and float-valued quantities are modelled as rationals;
Python's `int(...)` truncation of a non-negative float is `Int.floor`
followed by `Int.toNat`.
-/

namespace DRE

/-- A mono audio buffer: ordered samples as rationals. -/
abbrev Buffer := List ℚ

/-- Maximum of a list of rationals with 0 as the neutral element;
this matches `np.max` on a list of absolute values (all non-negative). -/
def listMax (l : List ℚ) : ℚ := l.foldr max 0

theorem listMax_nonneg (l : List ℚ) : 0 ≤ listMax l := by
  induction l with
  | nil => simp [listMax]
  | cons x xs ih => simp only [listMax, List.foldr] at *; exact le_trans ih (le_max_right _ _)

theorem le_listMax (l : List ℚ) (x : ℚ) (hx : x ∈ l) : x ≤ listMax l := by
  induction l with
  | nil => cases hx
  | cons y ys ih =>
    rcases List.mem_cons.mp hx with h | h
    · simpa [listMax, h] using le_max_left y (listMax ys)
    · exact le_trans (ih h) (by simpa [listMax] using le_max_right y (listMax ys))

theorem listMax_le (l : List ℚ) (b : ℚ) (hb : 0 ≤ b) (h : ∀ x ∈ l, x ≤ b) :
    listMax l ≤ b := by
  induction l with
  | nil => simpa [listMax] using hb
  | cons y ys ih =>
    have h1 : y ≤ b := h y (List.mem_cons_self _ _)
    have h2 : listMax ys ≤ b := ih (fun x hx => h x (List.mem_cons_of_mem _ hx))
    simpa [listMax] using max_le h1 h2

theorem listMax_mem (l : List ℚ) (h0 : ∀ x ∈ l, 0 ≤ x) (hne : l ≠ []) :
    listMax l ∈ l := by
  induction l with
  | nil => exact absurd rfl hne
  | cons y ys ih =>
    by_cases hys : ys = []
    · subst hys
      have hy : 0 ≤ y := h0 y (List.mem_cons_self _ _)
      simp [listMax, max_eq_left hy]
    · have hmem := ih (fun x hx => h0 x (List.mem_cons_of_mem _ hx)) hys
      rcases max_choice y (listMax ys) with h | h
      · exact List.mem_cons.mpr (Or.inl (by simpa [listMax] using h.symm))
      · refine List.mem_cons.mpr (Or.inr ?_)
        have : listMax (y :: ys) = listMax ys := by simpa [listMax] using h
        simpa [this] using hmem

/-! ### Peak envelope (`NeonWaveform.set_waveform`)

```python
samples = 2000
step = max(1, len(audio) // samples)
self.peaks = np.array([
    np.max(np.abs(audio[i:i + step]))
    for i in range(0, len(audio), step)
])
```
-/

/-- The target resolution constant `samples = 2000`. -/
def waveformResolution : ℕ := 2000

/-- `step = max(1, len(audio) // samples)`. -/
def peakStep (n : ℕ) : ℕ := max 1 (n / waveformResolution)

/-- The slice `audio[i : i + step]`. -/
def windowSlice (audio : Buffer) (i step : ℕ) : Buffer :=
  (audio.drop i).take step

/-- `np.max(np.abs(audio[i:i+step]))`. -/
def windowMaxAbs (audio : Buffer) (i step : ℕ) : ℚ :=
  listMax ((windowSlice audio i step).map (fun x => |x|))

/-- The start indices `range(0, n, step)` (with `ceil(n / step)` entries). -/
def windowStarts (n step : ℕ) : List ℕ :=
  List.range' 0 ((n + step - 1) / step) step

/-- The peak list built by `NeonWaveform.set_waveform`. -/
def set_waveform_peaks (audio : Buffer) : List ℚ :=
  (windowStarts audio.length (peakStep audio.length)).map
    (fun i => windowMaxAbs audio i (peakStep audio.length))

/-- The spec's additional normalization step (NOT present in the code):
divide every window value by the maximum window value across the whole
envelope, or by 1.0 if the buffer is silent.  Used only to compare the
spec's description of the envelope with the code's. -/
def specNormalize (raw : List ℚ) : List ℚ :=
  let g := listMax raw
  let d := if g = 0 then 1 else g
  raw.map (fun v => v / d)

/-- The envelope the spec describes: per-window max-abs followed by
global-max normalization. -/
def spec_described_peaks (audio : Buffer) : List ℚ :=
  specNormalize (set_waveform_peaks audio)

/-! ### Audio callback (`CyberReverseEngine.audio_callback`, mono path)

```python
audio = self.current_audio
n = len(audio)
start = self.play_idx
end = min(start + frames, n)
chunk = audio[start:end]
if len(chunk) < frames:
    outdata[:len(chunk), 0] = chunk
    outdata[len(chunk):].fill(0)
    self.play_idx = 0
    raise sd.CallbackStop()
else:
    outdata[:, 0] = chunk
    self.play_idx = end
```
-/

/-- Result of one invocation of `audio_callback`: the samples written to
the output buffer (channel 0), the new cursor, and whether
`sd.CallbackStop` was raised (which ends the stream). -/
structure CallbackResult where
  out : List ℚ
  play_idx : ℕ
  stopped : Bool
  deriving DecidableEq, Repr

/-- One invocation of the mono `audio_callback` on buffer `audio`, with
cursor `play_idx`, asked for `frames` frames.  The Python slice
`audio[start:end]` is `(audio.drop start).take (end - start)`; natural
subtraction gives the empty slice when `start > end`, exactly as in
Python. -/
def audio_callback (audio : Buffer) (play_idx frames : ℕ) : CallbackResult :=
  let n := audio.length
  let start := play_idx
  let e := min (start + frames) n
  let chunk := (audio.drop start).take (e - start)
  if chunk.length < frames then
    { out := chunk ++ List.replicate (frames - chunk.length) 0
      play_idx := 0
      stopped := true }
  else
    { out := chunk, play_idx := e, stopped := false }

/-- Transport state: the buffer, the shared play cursor and whether the
stream is active (callbacks still being delivered). -/
structure Transport where
  audio : Buffer
  play_idx : ℕ
  active : Bool
  deriving DecidableEq, Repr

/-- One step of the streaming transport: while the stream is active the
device invokes `audio_callback`; a raised `sd.CallbackStop` deactivates
the stream.  An inactive stream delivers no callbacks, so it produces no
audio and changes nothing. -/
def transport_step (s : Transport) (frames : ℕ) : Transport × List ℚ :=
  if s.active then
    let r := audio_callback s.audio s.play_idx frames
    ({ s with play_idx := r.play_idx, active := !r.stopped }, r.out)
  else
    (s, [])

/-! ### BPM controls -/

/-- `half_bpm` value computation: `bpm = max(bpm / 2, 1.0)`
(the parsed text-field value goes in, the value written back via
`setText` comes out). -/
def half_bpm (bpm : ℚ) : ℚ := max (bpm / 2) 1

/-- The BPM text field: its parsed value (`none` when `float(text)`
raises `ValueError`) and its pixel width (set by `setFixedWidth`). -/
structure BpmBox where
  text : Option ℚ
  widthPx : ℕ
  deriving DecidableEq, Repr

/-- `double_bpm`: parses the field, computes `min(bpm * 2, 999.0)` into
a local variable, then calls `self.bpm_in.setFixedWidth(60)` — it never
writes the computed value back into the field (`setText` is absent), so
the stored text is unchanged.  On a parse failure nothing changes. -/
def double_bpm (s : BpmBox) : BpmBox :=
  match s.text with
  | none => s
  | some _ => { s with widthPx := 60 }

/-- The value `double_bpm` computes (and then discards):
`min(bpm * 2, 999.0)`. -/
def double_bpm_computed (bpm : ℚ) : ℚ := min (bpm * 2) 999

/-- `SweepIndicator.set_bpm`: `v = float(bpm_val)`;
`self.bpm = v if v > 0 else 120.0`; on exception `self.bpm = 120.0`.
`prev` is the previously stored BPM, `input` the parse result. -/
def set_bpm (prev : ℚ) (input : Option ℚ) : ℚ :=
  match input with
  | none => 120
  | some v => if 0 < v then v else 120

/-! ### Transport toggle (`toggle_play`) -/

/-- The engine state relevant to `toggle_play`: the loaded buffer (or
`none`), the play cursor and whether a stream is active. -/
structure PlayerState where
  audio : Option Buffer
  play_idx : ℕ
  streamActive : Bool
  deriving DecidableEq, Repr

/-- `toggle_play`: when a stream is active, stop and close it (the
cursor field is not touched); otherwise, if a buffer is loaded, set
`self.play_idx = 0` and start a new stream. -/
def toggle_play (s : PlayerState) : PlayerState :=
  if s.streamActive then
    { s with streamActive := false }
  else
    match s.audio with
    | none => s
    | some _ => { s with play_idx := 0, streamActive := true }

/-! ### Seeking (`snap_to_ms`) -/

/-- `snap_to_ms` cursor computation (the `current_audio is None or
sr <= 0` guard is a hypothesis of the theorems):
`ms = max(0.0, min(total_ms, ms))`;
`sample_pos = int((ms / 1000.0) * sr)`;
`play_idx = max(0, min(sample_pos, len(audio) - 1))`. -/
def snap_to_ms (audio : Buffer) (sr : ℚ) (ms : ℚ) : ℕ :=
  let total_ms : ℚ := ((audio.length : ℚ) / sr) * 1000
  let ms2 : ℚ := max 0 (min total_ms ms)
  let sample_pos : ℤ := ⌊(ms2 / 1000) * sr⌋
  (max 0 (min sample_pos ((audio.length : ℤ) - 1))).toNat

/-! ### Transform worker (`ReverseWorker.run`) -/

/-- The grid parameters passed to the external pipeline. -/
structure GridParams where
  bars_per_slice : ℤ
  beats_per_bar : ℤ
  tatum_fraction : ℤ
  deriving DecidableEq, Repr

/-- `ReverseWorker.run`: call `process_audio(**params)` and emit
`(processed, mode)`; if it raises, emit the untouched input buffer
tagged `"ERROR_FALLBACK"`.  The external `process_audio` is a parameter
returning `Except` (it is out of scope for the spec). -/
def reverse_worker_run
    (process_audio : Buffer → ℚ → String → ℚ → GridParams → Except String Buffer)
    (audio : Buffer) (sr : ℚ) (mode : String) (tempo : ℚ) (gp : GridParams) :
    Buffer × String :=
  match process_audio audio sr mode tempo gp with
  | Except.ok processed => (processed, mode)
  | Except.error _ => (audio, "ERROR_FALLBACK")

/-! ### Zoom (`NeonWaveform.mousePressEvent`, right-click with no
active zoom)

```python
center = int((x / self.width()) * self.total_peaks)
win = int(self.total_peaks * 0.15)
self.sel_start = max(0, center - win // 2)
self.sel_end = min(self.total_peaks, self.sel_start + win)
```
-/

/-- The zoom-window computation: pointer `x`, widget width `width`,
envelope length `total`.  `0.15` is idealized to the exact rational
`15/100`; `int(...)` on the non-negative products is `Int.floor`. -/
def beginZoom (x width total : ℕ) : ℕ × ℕ :=
  let center : ℤ := ⌊((x : ℚ) / (width : ℚ)) * (total : ℚ)⌋
  let win : ℤ := ⌊(total : ℚ) * (15 / 100 : ℚ)⌋
  let s : ℤ := max 0 (center - win / 2)
  let e : ℤ := min (total : ℤ) (s + win)
  (s.toNat, e.toNat)

/-! ### Callback helper lemmas -/

theorem chunk_take_frames (audio : Buffer) (c frames : ℕ) :
    (audio.drop c).take (min (c + frames) audio.length - c) =
      (audio.drop c).take frames := by
  rcases le_or_lt c audio.length with hc | hc
  · have h1 : min (c + frames) audio.length - c = min frames (audio.length - c) := by
      omega
    rw [h1]
    rcases le_or_lt frames (audio.length - c) with h | h
    · rw [min_eq_left h]
    · rw [min_eq_right (le_of_lt h)]
      rw [List.take_of_length_le (by rw [List.length_drop]),
        List.take_of_length_le (by rw [List.length_drop]; omega)]
  · have h0 : audio.drop c = [] := List.drop_eq_nil_of_le (le_of_lt hc)
    simp [h0]

theorem audio_callback_complete (audio : Buffer) (c frames : ℕ)
    (hrem : audio.length - c < frames) :
    audio_callback audio c frames =
      ⟨audio.drop c ++ List.replicate (frames - (audio.length - c)) 0, 0, true⟩ := by
  have hchunk : (audio.drop c).take (min (c + frames) audio.length - c) =
      audio.drop c := by
    rw [chunk_take_frames]
    exact List.take_of_length_le (by rw [List.length_drop]; omega)
  have hlen : (audio.drop c).length = audio.length - c := List.length_drop _ _
  simp only [audio_callback, hchunk, hlen]
  rw [if_pos (by omega)]

/-- C2: for every non-empty buffer, cursor `c` and callback request of
`frames` frames with fewer than `frames` samples remaining, the callback
copies the remaining samples into the output, fills the tail with exact
zeros, resets the cursor to 0 and deactivates the stream; an inactive
stream receives no further callbacks, so completion is signalled exactly
once. -/
theorem C2_natural_completion (audio : Buffer) (c frames : ℕ)
    (hne : audio ≠ []) (hrem : audio.length - c < frames) :
    (transport_step ⟨audio, c, true⟩ frames).2 =
        audio.drop c ++ List.replicate (frames - (audio.length - c)) 0 ∧
    (transport_step ⟨audio, c, true⟩ frames).1 = ⟨audio, 0, false⟩ ∧
    ∀ f, transport_step ⟨audio, 0, false⟩ f = (⟨audio, 0, false⟩, []) := by
  have hcb := audio_callback_complete audio c frames hrem
  refine ⟨?_, ?_, ?_⟩
  · simp [transport_step, hcb]
  · simp [transport_step, hcb]
  · intro f
    simp [transport_step]

/-- C2 witness: buffer `[1, 2]`, cursor 1, request of 3 frames: output
is `[2, 0, 0]` and the transport ends deactivated with cursor 0. -/
theorem C2_witness :
    (transport_step ⟨[(1 : ℚ), 2], 1, true⟩ 3).2 = [2, 0, 0] ∧
    (transport_step ⟨[(1 : ℚ), 2], 1, true⟩ 3).1 = ⟨[(1 : ℚ), 2], 0, false⟩ := by
  have h := C2_natural_completion [(1 : ℚ), 2] 1 3 (by simp) (by norm_num)
  exact ⟨by rw [h.1]; rfl, h.2.1⟩

/-- C10: the audio callback is total even with a stale cursor: the
output always holds exactly `frames` samples, each either zero or a
sample of the buffer (no out-of-bounds read), and when the cursor is at
or past the buffer length the whole output is zero, the cursor resets to
0 and the stream is stopped instead of failing. -/
theorem C10_callback_total (audio : Buffer) (idx frames : ℕ) (hf : 0 < frames) :
    ((audio_callback audio idx frames).out.length = frames ∧
      ∀ y ∈ (audio_callback audio idx frames).out, y = 0 ∨ y ∈ audio) ∧
    (audio.length ≤ idx →
      (audio_callback audio idx frames).out = List.replicate frames 0 ∧
      (audio_callback audio idx frames).play_idx = 0 ∧
      (audio_callback audio idx frames).stopped = true) := by
  have hmem : ∀ y ∈ (audio.drop idx).take (min (idx + frames) audio.length - idx),
      y = 0 ∨ y ∈ audio := by
    intro y hy
    exact Or.inr (List.mem_of_mem_drop (List.mem_of_mem_take hy))
  have hclen : ((audio.drop idx).take (min (idx + frames) audio.length - idx)).length
      ≤ frames := by
    rw [List.length_take, List.length_drop]
    omega
  refine ⟨?_, ?_⟩
  · simp only [audio_callback]
    split
    · rename_i hlt
      constructor
      · simp only [List.length_append, List.length_replicate]
        omega
      · intro y hy
        rcases List.mem_append.mp hy with h | h
        · exact hmem y h
        · exact Or.inl (List.eq_of_mem_replicate h)
    · rename_i hge
      dsimp only
      exact ⟨by omega, hmem⟩
  · intro hidx
    have h := audio_callback_complete audio idx frames (by omega)
    have hd : audio.drop idx = [] := List.drop_eq_nil_of_le hidx
    rw [h]
    refine ⟨?_, rfl, rfl⟩
    simp [hd]
    omega

/-- C10 witness: buffer `[1]`, stale cursor 5, request of 2 frames:
the callback outputs `[0, 0]` and resets the cursor to 0. -/
theorem C10_witness :
    (audio_callback [(1 : ℚ)] 5 2).out = [0, 0] ∧
    (audio_callback [(1 : ℚ)] 5 2).play_idx = 0 := by
  have h := (C10_callback_total [(1 : ℚ)] 5 2 (by norm_num)).2 (by norm_num)
  exact ⟨by rw [h.1]; rfl, h.2.1⟩

/-- C6: for a loaded non-empty buffer and any seek target (negative or
past the end included), `snap_to_ms` clamps the cursor into
`[0, len(buffer))`, and an audio-callback step never leaves the cursor
above the buffer length. -/
theorem C6_seek_clamped (audio : Buffer) (sr ms : ℚ) (idx frames : ℕ)
    (hne : audio ≠ []) (hsr : 0 < sr) :
    snap_to_ms audio sr ms < audio.length ∧
    (audio_callback audio idx frames).play_idx ≤ audio.length := by
  constructor
  · have hlen : 0 < audio.length := List.length_pos.mpr hne
    simp only [snap_to_ms]
    omega
  · simp only [audio_callback]
    split
    · simp
    · simp only
      omega

/-- C6 witness: buffer of length 2 at 44100 Hz, seek target −5 ms:
the cursor lands strictly below 2, and a callback from cursor 0 with one
frame stays within the buffer length. -/
theorem C6_witness :
    snap_to_ms [(1 : ℚ), 2] 44100 (-5) < 2 ∧
    (audio_callback [(1 : ℚ), 2] 0 1).play_idx ≤ 2 := by
  have h := C6_seek_clamped [(1 : ℚ), 2] 44100 (-5) 0 1 (by simp) (by norm_num)
  simpa using h

/-! ### Peak-envelope theorems (C1) -/

theorem set_waveform_peaks_getD (audio : Buffer) (k : ℕ)
    (hk : k < (set_waveform_peaks audio).length) :
    (set_waveform_peaks audio).getD k 0 =
      windowMaxAbs audio (peakStep audio.length * k) (peakStep audio.length) := by
  have hk' : k < (windowStarts audio.length (peakStep audio.length)).length := by
    simpa [set_waveform_peaks] using hk
  rw [List.getD_eq_getElem _ _ hk]
  simp only [set_waveform_peaks, List.getElem_map]
  congr 1
  have hk'' : k < (audio.length + peakStep audio.length - 1) / peakStep audio.length := by
    simpa [windowStarts] using hk'
  simp [windowStarts, List.getElem_range']

/-- C1 counterexample: on the buffer `[1/2]` (a single maximal sample of
absolute value 1/2) the code's envelope is `[1/2]`, while the claimed
normalize-by-global-max envelope would be `[1]`: `set_waveform` performs
no normalization, so the peak in the maximal sample's window is 1/2, not
exactly 1.0. -/
theorem C1_counterexample :
    set_waveform_peaks [(1 : ℚ)/2] = [1/2] ∧
    spec_described_peaks [(1 : ℚ)/2] = [1] ∧
    ((1 : ℚ)/2) ≠ 1 := by
  refine ⟨?_, ?_, by norm_num⟩ <;>
    norm_num [spec_described_peaks, specNormalize, set_waveform_peaks,
      windowStarts, peakStep, waveformResolution, windowMaxAbs, windowSlice,
      listMax, List.range']

/-- C1 amended: for every non-empty buffer, `set_waveform` computes for
each window of `windowSamples = max(1, floor(len(buffer) / 2000))`
samples the maximum absolute sample value, with NO global normalization:
peak `k` dominates `|x|` for every sample `x` of window `k`, is attained
by some sample of the window, is non-negative, and is at most 1 exactly
when the samples themselves are bounded by 1 in absolute value. -/
theorem C1_window_max (audio : Buffer) (k : ℕ)
    (hk : k < (set_waveform_peaks audio).length) :
    (∀ x ∈ windowSlice audio (peakStep audio.length * k) (peakStep audio.length),
        |x| ≤ (set_waveform_peaks audio).getD k 0) ∧
    (windowSlice audio (peakStep audio.length * k) (peakStep audio.length) ≠ [] →
      ∃ x ∈ windowSlice audio (peakStep audio.length * k) (peakStep audio.length),
        (set_waveform_peaks audio).getD k 0 = |x|) ∧
    0 ≤ (set_waveform_peaks audio).getD k 0 ∧
    ((∀ x ∈ audio, |x| ≤ 1) → (set_waveform_peaks audio).getD k 0 ≤ 1) := by
  rw [set_waveform_peaks_getD audio k hk]
  set i := peakStep audio.length * k
  set step := peakStep audio.length
  refine ⟨?_, ?_, ?_, ?_⟩
  · intro x hx
    exact le_listMax _ _ (List.mem_map_of_mem _ hx)
  · intro hne
    have hmap : (windowSlice audio i step).map (fun x => |x|) ≠ [] := by
      simpa using hne
    have hmem := listMax_mem ((windowSlice audio i step).map (fun x => |x|))
      (by intro x hx
          rcases List.mem_map.mp hx with ⟨y, _, rfl⟩
          exact abs_nonneg y) hmap
    rcases List.mem_map.mp hmem with ⟨y, hy, hxy⟩
    exact ⟨y, hy, hxy.symm⟩
  · exact listMax_nonneg _
  · intro hbound
    refine listMax_le _ _ (by norm_num) ?_
    intro x hx
    rcases List.mem_map.mp hx with ⟨y, hy, rfl⟩
    exact hbound y (List.mem_of_mem_drop (List.mem_of_mem_take hy))

/-- C1 witness: on the buffer `[1/2, 1]` (step 1, two windows), peak 0
dominates the absolute value of the sample `1/2` of window 0 and is
non-negative. -/
theorem C1_witness :
    |(1 : ℚ)/2| ≤ (set_waveform_peaks [(1 : ℚ)/2, 1]).getD 0 0 ∧
    0 ≤ (set_waveform_peaks [(1 : ℚ)/2, 1]).getD 0 0 := by
  have hk : 0 < (set_waveform_peaks [(1 : ℚ)/2, 1]).length := by
    norm_num [set_waveform_peaks, windowStarts, peakStep, waveformResolution]
  have h := C1_window_max [(1 : ℚ)/2, 1] 0 hk
  refine ⟨h.1 (1/2) ?_, h.2.2.1⟩
  norm_num [windowSlice, peakStep, waveformResolution]

/-! ### BPM theorems (C3, C4, C8) -/

/-- C3 counterexample: the halve operation does not clamp to the floor
20: on the stored BPM 20 it yields 10 (the code clamps at 1.0, not 20),
so the result of halve can drop below 20. -/
theorem C3_counterexample :
    half_bpm 20 = 10 ∧ ¬ (20 : ℚ) ≤ half_bpm 20 := by
  constructor <;> norm_num [half_bpm]

/-- C3 amended: `half_bpm` multiplies the stored BPM by 0.5 and clamps
it below at 1.0 (not 20): halving 40 yields 20, halving 20 yields 10,
and for every BPM value the result is never below 1.0. -/
theorem C3_halve_clamps_at_one :
    half_bpm 40 = 20 ∧ half_bpm 20 = 10 ∧ ∀ b : ℚ, 1 ≤ half_bpm b := by
  exact ⟨by norm_num [half_bpm], by norm_num [half_bpm],
    fun b => le_max_right _ _⟩

/-- C4 (code bug): `double_bpm` computes `min(bpm * 2, 999.0)` but then
calls `setFixedWidth(60)` instead of `setText`, so the stored BPM field
still holds 120 after doubling from 120, although the computed doubled
value is 240 ≠ 120 (and the code's own log prints "Doubled"). -/
theorem C4_double_discards_value :
    (double_bpm ⟨some 120, 100⟩).text = some 120 ∧
    (double_bpm ⟨some 120, 100⟩).widthPx = 60 ∧
    double_bpm_computed 120 = 240 ∧ ((240 : ℚ) ≠ 120) := by
  refine ⟨rfl, rfl, by norm_num [double_bpm_computed], by norm_num⟩

/-- C8 counterexample: with previously stored BPM 80, the invalid input
0 does not leave the stored value unchanged: `set_bpm` stores the
default 120.0 instead of retaining 80. -/
theorem C8_counterexample :
    set_bpm 80 (some 0) = 120 ∧ ((120 : ℚ) ≠ 80) := by
  constructor
  · norm_num [set_bpm]
  · norm_num

/-- C8 amended: `SweepIndicator.set_bpm` rejects zero, negative and
non-numeric input, but stores the default 120.0 rather than retaining
the previous value; a valid positive input is stored as given. -/
theorem C8_invalid_resets_to_default (prev v : ℚ) :
    (v ≤ 0 → set_bpm prev (some v) = 120) ∧
    set_bpm prev none = 120 ∧
    (0 < v → set_bpm prev (some v) = v) := by
  refine ⟨fun h => ?_, rfl, fun h => ?_⟩
  · simp [set_bpm, not_lt.mpr h]
  · simp [set_bpm, h]

/-- C8 witness: previous BPM 80 with invalid inputs −5 and non-numeric:
both store the default 120. -/
theorem C8_witness :
    set_bpm 80 (some (-5)) = 120 ∧ set_bpm 80 none = 120 :=
  ⟨(C8_invalid_resets_to_default 80 (-5)).1 (by norm_num),
    (C8_invalid_resets_to_default 80 (-5)).2.1⟩

/-! ### Transport toggle theorems (C5) -/

/-- C5 counterexample: from an active stream with cursor 100, stop
preserves the cursor (100), but the subsequent start resets it to
0 ≠ 100 — playback does not resume from the preserved position. -/
theorem C5_counterexample :
    (toggle_play ⟨some [(0 : ℚ)], 100, true⟩).play_idx = 100 ∧
    (toggle_play (toggle_play ⟨some [(0 : ℚ)], 100, true⟩)).play_idx = 0 ∧
    (0 : ℕ) ≠ 100 := by
  refine ⟨rfl, rfl, by norm_num⟩

/-- C5 amended: stop leaves the playback cursor unchanged, but every
start unconditionally resets the cursor to 0 (`self.play_idx = 0`):
there is no resume from the preserved position; stop-then-start always
restarts at 0. -/
theorem C5_start_always_rewinds (s : PlayerState) (a : Buffer)
    (hact : s.streamActive = true) (haud : s.audio = some a) :
    (toggle_play s).play_idx = s.play_idx ∧
    (toggle_play s).streamActive = false ∧
    (toggle_play (toggle_play s)).play_idx = 0 ∧
    (toggle_play (toggle_play s)).streamActive = true := by
  have h1 : toggle_play s = { s with streamActive := false } := by
    simp [toggle_play, hact]
  have h2 : toggle_play { s with streamActive := false } =
      { s with play_idx := 0, streamActive := true } := by
    simp [toggle_play, haud]
  rw [h1, h2]
  exact ⟨rfl, rfl, rfl, rfl⟩

/-- C5 witness: active stream over the buffer `[0]` with cursor 7:
stop keeps the cursor at 7, the following start rewinds to 0. -/
theorem C5_witness :
    (toggle_play ⟨some [(0 : ℚ)], 7, true⟩).play_idx = 7 ∧
    (toggle_play (toggle_play ⟨some [(0 : ℚ)], 7, true⟩)).play_idx = 0 := by
  have h := C5_start_always_rewinds ⟨some [(0 : ℚ)], 7, true⟩ [(0 : ℚ)] rfl rfl
  exact ⟨h.1, h.2.2.1⟩

/-! ### Transform worker theorems (C7) -/

/-- C7: if the external pipeline raises, `ReverseWorker.run` emits
exactly the unmodified input buffer tagged `"ERROR_FALLBACK"`; a
successful transform is emitted under its own mode tag, which for every
mode the GUI triggers differs from `"ERROR_FALLBACK"`, so the caller can
distinguish the failure fallback from a successful result. -/
theorem C7_error_fallback
    (pa : Buffer → ℚ → String → ℚ → GridParams → Except String Buffer)
    (audio : Buffer) (sr : ℚ) (mode : String) (tempo : ℚ) (gp : GridParams)
    (hmode : mode = "TRUE_REVERSE" ∨ mode = "HQ_REVERSE" ∨
      mode = "TATUM_REVERSE" ∨ mode = "STUDIO_MODE") :
    (∀ e, pa audio sr mode tempo gp = Except.error e →
      reverse_worker_run pa audio sr mode tempo gp = (audio, "ERROR_FALLBACK")) ∧
    (∀ b, pa audio sr mode tempo gp = Except.ok b →
      reverse_worker_run pa audio sr mode tempo gp = (b, mode) ∧
        (reverse_worker_run pa audio sr mode tempo gp).2 ≠ "ERROR_FALLBACK") := by
  constructor
  · intro e he
    simp [reverse_worker_run, he]
  · intro b hb
    refine ⟨by simp [reverse_worker_run, hb], ?_⟩
    simp only [reverse_worker_run, hb]
    rcases hmode with h | h | h | h <;> simp [h]

/-- C7 witness: a pipeline that always fails, called on the buffer `[1]`
in mode `TRUE_REVERSE`, yields the original buffer tagged
`ERROR_FALLBACK`. -/
theorem C7_witness :
    reverse_worker_run (fun _ _ _ _ _ => Except.error "boom") [(1 : ℚ)]
      44100 "TRUE_REVERSE" 120 ⟨1, 4, 16⟩ = ([(1 : ℚ)], "ERROR_FALLBACK") :=
  (C7_error_fallback (fun _ _ _ _ _ => Except.error "boom") [(1 : ℚ)]
    44100 "TRUE_REVERSE" 120 ⟨1, 4, 16⟩ (Or.inl rfl)).1 "boom" rfl

/-! ### Zoom theorems (C9) -/

theorem zoom_center_nonneg (x width total : ℕ) :
    0 ≤ (⌊((x : ℚ) / (width : ℚ)) * (total : ℚ)⌋ : ℤ) :=
  Int.floor_nonneg.mpr (by positivity)

theorem zoom_center_le_total (x width total : ℕ) (hx : x ≤ width)
    (hw : 0 < width) :
    (⌊((x : ℚ) / (width : ℚ)) * (total : ℚ)⌋ : ℤ) ≤ total := by
  have hw' : (0 : ℚ) < width := by exact_mod_cast hw
  have hx' : (x : ℚ) ≤ width := by exact_mod_cast hx
  have hdiv : ((x : ℚ) / width) ≤ 1 := (div_le_one hw').mpr hx'
  have h1 : ((x : ℚ) / width) * total ≤ total := by
    calc ((x : ℚ) / width) * total ≤ 1 * total :=
          mul_le_mul_of_nonneg_right hdiv (by positivity)
      _ = total := one_mul _
  calc (⌊((x : ℚ) / width) * total⌋ : ℤ) ≤ ⌊(total : ℚ)⌋ := Int.floor_le_floor h1
    _ = total := Int.floor_natCast total

theorem zoom_win_bounds (total : ℕ) :
    0 ≤ (⌊(total : ℚ) * (15 / 100 : ℚ)⌋ : ℤ) ∧
    (⌊(total : ℚ) * (15 / 100 : ℚ)⌋ : ℤ) ≤ total := by
  constructor
  · exact Int.floor_nonneg.mpr (by positivity)
  · have h1 : (total : ℚ) * (15 / 100) ≤ total := by
      nlinarith [Nat.cast_nonneg (α := ℚ) total]
    calc (⌊(total : ℚ) * (15 / 100 : ℚ)⌋ : ℤ) ≤ ⌊(total : ℚ)⌋ :=
          Int.floor_le_floor h1
      _ = total := Int.floor_natCast total

/-- C9 counterexample: with 2000 peaks and a 1000-px widget, a
right-click at the rightmost position 1000 produces the window
`[1850, 2000)` of width 150, which is not within ±1 of
`round(2000 × 0.15) = 300`: the window is clipped at the right edge, so
the "width always within ±1 of the fixed fraction" part of the claim
fails. -/
theorem C9_counterexample :
    beginZoom 1000 1000 2000 = (1850, 2000) ∧
    ¬ ((300 : ℤ) - 1 ≤ 2000 - 1850 ∧ (2000 : ℤ) - 1850 ≤ 300 + 1) := by
  constructor
  · have hc : (⌊((1000 : ℕ) : ℚ) / ((1000 : ℕ) : ℚ) * ((2000 : ℕ) : ℚ)⌋ : ℤ) =
        2000 := by norm_num
    have hw : (⌊((2000 : ℕ) : ℚ) * (15 / 100 : ℚ)⌋ : ℤ) = 300 := by norm_num
    simp only [beginZoom, hc, hw]
    rfl
  · norm_num

/-- C9 amended: `beginZoom` at the leftmost pointer position (x = 0)
produces `start = 0`; at the rightmost (x = widgetWidth) it produces
`end = totalPeaks`; and in every case the window width `end − start`
equals `min(floor(totalPeaks × 0.15), totalPeaks − start)` — it equals
the fixed-fraction width when the window fits and is smaller when the
window is clipped at the right edge (so it is not always within ±1 of
the fraction). -/
theorem C9_zoom_window (width total : ℕ) (hw : 0 < width) :
    (beginZoom 0 width total).1 = 0 ∧
    (beginZoom width width total).2 = total ∧
    ∀ x : ℕ, x ≤ width →
      (((beginZoom x width total).2 : ℤ) - ((beginZoom x width total).1 : ℤ)) =
        min ⌊(total : ℚ) * (15 / 100 : ℚ)⌋
          ((total : ℤ) - ((beginZoom x width total).1 : ℤ)) := by
  have hwin := zoom_win_bounds total
  refine ⟨?_, ?_, ?_⟩
  · simp only [beginZoom, Nat.cast_zero, zero_div, zero_mul, Int.floor_zero]
    omega
  · have hc : (⌊((width : ℚ) / (width : ℚ)) * (total : ℚ)⌋ : ℤ) = total := by
      rw [div_self (show (width : ℚ) ≠ 0 by exact_mod_cast hw.ne'), one_mul,
        Int.floor_natCast]
    simp only [beginZoom, hc]
    omega
  · intro x hx
    have hc0 := zoom_center_nonneg x width total
    have hct := zoom_center_le_total x width total hx hw
    simp only [beginZoom]
    omega

/-- C9 witness: 2000 peaks, 1000-px widget: the leftmost click gives
`start = 0` and the rightmost click gives `end = 2000`. -/
theorem C9_witness :
    (beginZoom 0 1000 2000).1 = 0 ∧ (beginZoom 1000 1000 2000).2 = 2000 := by
  have h := C9_zoom_window 1000 2000 (by norm_num)
  exact ⟨h.1, h.2.1⟩

end DRE

